import Mathlib

/-!
Shallow embedding of PRBot (`prbot.py`): a batch job that polls a GitHub
repository for new pull requests, posts a templated comment on each new one
(optionally closing it), and persists a high-water mark plus a cached
installation token across runs.

Modelling conventions:
* machine integers / timestamps are `Nat` / `Int`;
* fallible Python code (raising exceptions) is `Except String _`;
* the mutable `status` dict is an explicit `Status` record threaded through;
* outbound HTTP is an oracle (`Net`, `GithubOps`) supplied as a parameter,
  and credential-exchange calls are logged in an explicit `NetCall` trace;
* externally visible mutations of the repository (comment posted, pull
  request closed) are logged in an explicit `Effect` trace.
-/

namespace PRBot

/-- The persisted status record, after `main`'s `setdefault` calls: all three
keys are present; `none` models JSON `null`/absent value. -/
structure Status where
  pull_req_number : Nat
  installation_token : Option String
  token_expires_at : Option String
deriving DecidableEq, Repr

/-- Python truthiness of an optional string (`None` and `""` are falsy). -/
def truthy : Option String → Bool
  | none => false
  | some s => !(s == "")

/-! ### Expiry-timestamp parsing

Models the `time.strptime(expires_at_str, "%Y-%m-%dT%H:%M:%SZ")` followed by
`calendar.timegm(...)` block in `get_or_refresh_token`.  A `none` result
models the `(ValueError, KeyError)` exceptions the caller catches. -/

/-- Value of a decimal digit character, `none` if not a digit. -/
def digitVal (c : Char) : Option Nat :=
  if c.isDigit then some (c.toNat - 48) else none

/-- Cumulative day count before month `m` (1-based) in a non-leap year. -/
def monthDaysBefore : Nat → Nat
  | 1 => 0 | 2 => 31 | 3 => 59 | 4 => 90 | 5 => 120 | 6 => 151
  | 7 => 181 | 8 => 212 | 9 => 243 | 10 => 273 | 11 => 304 | 12 => 334
  | _ => 0

/-- Gregorian leap-year test. -/
def isLeapYear (y : Nat) : Bool :=
  (y % 4 == 0 && y % 100 != 0) || y % 400 == 0

/-- `datetime.date(y, m, 1).toordinal()`: days since 0001-01-01, plus one. -/
def ordinalOfMonthStart (y m : Nat) : Nat :=
  365 * (y - 1) + (y - 1) / 4 - (y - 1) / 100 + (y - 1) / 400
    + monthDaysBefore m + (if 2 < m && isLeapYear y then 1 else 0) + 1

/-- `calendar.timegm` applied to a struct parsed from `%Y-%m-%dT%H:%M:%SZ`:
seconds since the Unix epoch (719163 is the ordinal of 1970-01-01).  The day
is added without validation against the month length, exactly as
`calendar.timegm` does. -/
def timegm (y m d h mi s : Nat) : Int :=
  let days : Int := (ordinalOfMonthStart y m : Int) - 719163 + (d : Int) - 1
  ((days * 24 + (h : Int)) * 60 + (mi : Int)) * 60 + (s : Int)

/-- Parse a `YYYY-MM-DDTHH:MM:SSZ` string to an epoch timestamp.  Field
ranges mirror what `time.strptime` accepts for `%m` (1-12), `%d` (1-31),
`%H` (0-23), `%M` (0-59), `%S` (0-61, allowing leap seconds); a year of 0
is rejected, as `calendar.timegm`'s internal date construction raises
`ValueError` there.  Any failure maps to `none`, the caught-exception path. -/
def parseTimestamp (str : String) : Option Int :=
  match str.data with
  | [y1, y2, y3, y4, '-', m1, m2, '-', d1, d2, 'T',
     h1, h2, ':', n1, n2, ':', s1, s2, 'Z'] =>
    match digitVal y1, digitVal y2, digitVal y3, digitVal y4,
          digitVal m1, digitVal m2, digitVal d1, digitVal d2,
          digitVal h1, digitVal h2, digitVal n1, digitVal n2,
          digitVal s1, digitVal s2 with
    | some a, some b, some c, some d, some e, some f, some g, some h,
      some i, some j, some k, some l, some p, some q =>
      let y := 1000 * a + 100 * b + 10 * c + d
      let mo := 10 * e + f
      let dy := 10 * g + h
      let hr := 10 * i + j
      let mi := 10 * k + l
      let sc := 10 * p + q
      if 1 ≤ y ∧ 1 ≤ mo ∧ mo ≤ 12 ∧ 1 ≤ dy ∧ dy ≤ 31 ∧
         hr ≤ 23 ∧ mi ≤ 59 ∧ sc ≤ 61 then
        some (timegm y mo dy hr mi sc)
      else none
    | _, _, _, _, _, _, _, _, _, _, _, _, _, _ => none
  | _ => none

/-! ### Credential manager (`get_installation_token`, `get_or_refresh_token`) -/

/-- Response to the organization-installation lookup (`requests.get`):
status code, body text, and the `id` field of the JSON body. -/
structure InstallationResponse where
  status_code : Nat
  text : String
  id : Nat
deriving DecidableEq, Repr

/-- Response to the installation-token issuance (`requests.post`): status
code, body text, and the `token` / `expires_at` fields of the JSON body. -/
structure TokenResponse where
  status_code : Nat
  text : String
  token : String
  expires_at : String
deriving DecidableEq, Repr

/-- The outbound HTTP world seen by the credential manager.  `jwt_encode`
models `jwt.encode` on the payload `(iat, exp, iss)` with the private key;
the two endpoint functions take the bearer JWT and the URL path parameter. -/
structure Net where
  jwt_encode : Int → Int → String → String → String
  org_installation : String → String → InstallationResponse
  access_tokens : String → Nat → TokenResponse

/-- One credential-exchange network call, for counting side effects. -/
inductive NetCall where
  | installationLookup (org : String)
  | tokenIssuance (installation_id : Nat)
deriving DecidableEq, Repr

/-- `repo_name.split('/')[0]`: the part before the first slash. -/
def orgOf (repo_name : String) : String :=
  ⟨repo_name.data.takeWhile (fun c => c != '/')⟩

/-- `get_installation_token(client_id, private_key_path, repo_name)`.
`private_key` stands for the contents read from the key file, `now` for
`int(time.time())`.  Returns the `(token, expires_at)` pair or the raised
exception message, together with the trace of credential-exchange calls. -/
def get_installation_token (net : Net) (now : Int)
    (client_id private_key repo_name : String) :
    Except String (String × String) × List NetCall :=
  let org_name := orgOf repo_name
  let jwt_token := net.jwt_encode (now - 60) (now + 600) client_id private_key
  let r1 := net.org_installation jwt_token org_name
  if r1.status_code ≠ 200 then
    (Except.error ("Failed to get installation ID: " ++ toString r1.status_code
        ++ " - " ++ r1.text),
     [NetCall.installationLookup org_name])
  else
    let r2 := net.access_tokens jwt_token r1.id
    if r2.status_code ≠ 201 then
      (Except.error ("Failed to get installation token: "
          ++ toString r2.status_code ++ " - " ++ r2.text),
       [NetCall.installationLookup org_name, NetCall.tokenIssuance r1.id])
    else
      (Except.ok (r2.token, r2.expires_at),
       [NetCall.installationLookup org_name, NetCall.tokenIssuance r1.id])

/-- The fresh-token tail of `get_or_refresh_token` (lines 113-120): mint a
token and store it with its expiry into the status record. -/
def refreshResult (net : Net) (now : Int) (status : Status)
    (client_id private_key repo_name : String) :
    Except String (String × Status) × List NetCall :=
  match get_installation_token net now client_id private_key repo_name with
  | (Except.error e, calls) => (Except.error e, calls)
  | (Except.ok (token, expires_at), calls) =>
    (Except.ok (token, { status with installation_token := some token,
                                     token_expires_at := some expires_at }),
     calls)

/-- `get_or_refresh_token(status, client_id, private_key_path, repo_name)`:
return a cached token when both fields are truthy and the parsed expiry is
more than 300 seconds in the future; otherwise fall through (also on a parse
failure, which the source catches) and mint a fresh token. -/
def get_or_refresh_token (net : Net) (now : Int) (status : Status)
    (client_id private_key repo_name : String) :
    Except String (String × Status) × List NetCall :=
  if truthy status.installation_token && truthy status.token_expires_at then
    match parseTimestamp (status.token_expires_at.getD "") with
    | some expires_at_timestamp =>
      if expires_at_timestamp > now + 300 then
        (Except.ok (status.installation_token.getD "", status), [])
      else refreshResult net now status client_id private_key repo_name
    | none => refreshResult net now status client_id private_key repo_name
  else refreshResult net now status client_id private_key repo_name

/-! ### Substring containment and `str.strip()` (for the duplicate check) -/

/-- `listStartsWith l n`: `n` is a prefix of `l` (by character equality). -/
def listStartsWith : List Char → List Char → Bool
  | _, [] => true
  | [], _ :: _ => false
  | c :: cs, d :: ds => c == d && listStartsWith cs ds

/-- `listOccurs hay needle`: `needle` occurs as a contiguous run in `hay`;
models Python's `needle in hay` on strings. -/
def listOccurs : List Char → List Char → Bool
  | [], needle => needle.isEmpty
  | c :: cs, needle => listStartsWith (c :: cs) needle || listOccurs cs needle

/-- Python `needle in hay` for strings. -/
def strContains (hay needle : String) : Bool :=
  listOccurs hay.data needle.data

/-- Python `str.strip()` on the character list: drop leading whitespace,
then drop trailing whitespace. -/
def pyStripList (l : List Char) : List Char :=
  ((l.dropWhile Char.isWhitespace).reverse.dropWhile Char.isWhitespace).reverse

/-- Python `str.strip()`. -/
def pyStrip (s : String) : String := ⟨pyStripList s.data⟩

/-! ### Poll-and-notify engine (`poll`) -/

/-- An issue comment as seen through `get_issue_comments`. -/
structure Comment where
  body : String
deriving DecidableEq, Repr

/-- One pull request, in the shape `poll` reads: number, author login,
title, and the `closed_at` timestamp (`none` when open). -/
structure PullRequest where
  number : Nat
  user_login : String
  title : String
  closed_at : Option String
deriving DecidableEq, Repr

/-- The external GitHub/template operations `poll` invokes, as an oracle;
`Except.error` models the call raising.  `render` is `msg.render(username=…)`;
the other three take the pull-request number. -/
structure GithubOps where
  render : String → Except String String
  get_issue_comments : Nat → Except String (List Comment)
  create_issue_comment : Nat → String → Except String Unit
  edit_close : Nat → Except String Unit

/-- Externally visible repository mutation performed by `poll`. -/
inductive Effect where
  | postComment (pr : Nat) (body : String)
  | closePR (pr : Nat)
deriving DecidableEq, Repr

/-- The pull-request number an effect acts on. -/
def effectNumber : Effect → Nat
  | Effect.postComment n _ => n
  | Effect.closePR n => n

/-- What happened to one pull request in the loop. -/
inductive PullOutcome where
  | broke
  | skippedClosed
  | skippedDuplicate
  | posted
  | errored
deriving DecidableEq, Repr

/-- Result of one per-pull-request iteration body. -/
structure StepResult where
  status : Status
  effects : List Effect
  outcome : PullOutcome
deriving DecidableEq, Repr

/-- Result of a completed polling loop: final status, the effect trace, and
the `(number, outcome)` log of every pull request the loop visited. -/
structure PollResult where
  status : Status
  effects : List Effect
  outcomes : List (Nat × PullOutcome)
deriving DecidableEq, Repr

/-- The `try:`-block body of `poll`'s loop (lines 132-158): the bare
`except:` catches every failure of the closed-check, comment fetch, comment
post, or close, so this function is total; `PullOutcome.errored` marks the
caught-and-logged path, on which the status is returned unchanged. -/
def handle_pull (ops : GithubOps) (autoClose : Bool) (st : Status)
    (pull : PullRequest) (comment : String) : StepResult :=
  match pull.closed_at with
  | some _ => ⟨st, [], PullOutcome.skippedClosed⟩
  | none =>
    match ops.get_issue_comments pull.number with
    | Except.error _ => ⟨st, [], PullOutcome.errored⟩
    | Except.ok existing_comments =>
      -- comment_text = comment.strip(); any(comment_text in c.body for c ...)
      if existing_comments.any (fun c => strContains c.body (pyStrip comment)) then
        ⟨st, [], PullOutcome.skippedDuplicate⟩
      else
        match ops.create_issue_comment pull.number comment with
        | Except.error _ => ⟨st, [Effect.postComment pull.number comment],
                             PullOutcome.errored⟩
        | Except.ok _ =>
          if autoClose then
            match ops.edit_close pull.number with
            | Except.error _ =>
              ⟨st, [Effect.postComment pull.number comment],
               PullOutcome.errored⟩
            | Except.ok _ =>
              ⟨{ st with pull_req_number := max st.pull_req_number pull.number },
               [Effect.postComment pull.number comment,
                Effect.closePR pull.number],
               PullOutcome.posted⟩
          else
            ⟨{ st with pull_req_number := max st.pull_req_number pull.number },
             [Effect.postComment pull.number comment], PullOutcome.posted⟩

/-- The loop of `poll` (lines 126-158) over the pull requests in iteration
order (newest first).  `threshold` is `status['pull_req_number']` read once
at line 125 and never re-read.  A `pull.number ≤ threshold` item stops the
loop.  `msg.render` at line 131 sits outside the `try:` block, so its
failure propagates out of the loop (`Except.error`). -/
def pollLoop (ops : GithubOps) (autoClose : Bool) (threshold : Nat) :
    List PullRequest → Status → Except String PollResult
  | [], st => Except.ok ⟨st, [], []⟩
  | pull :: rest, st =>
    if pull.number ≤ threshold then
      Except.ok ⟨st, [], [(pull.number, PullOutcome.broke)]⟩
    else
      match ops.render pull.user_login with
      | Except.error e => Except.error e
      | Except.ok comment =>
        let r := handle_pull ops autoClose st pull comment
        match pollLoop ops autoClose threshold rest r.status with
        | Except.error e => Except.error e
        | Except.ok res =>
          Except.ok ⟨res.status, r.effects ++ res.effects,
                     (pull.number, r.outcome) :: res.outcomes⟩

/-- `poll(repo, msg, status)`: `pulls` is `repo.get_pulls(sort='created')`
iterated through `.reversed`, i.e. newest first. -/
def poll (ops : GithubOps) (autoClose : Bool) (status : Status)
    (pulls : List PullRequest) : Except String PollResult :=
  pollLoop ops autoClose status.pull_req_number pulls status

/-! ### Run driver (`main`) -/

/-- The status file as loaded from disk before `setdefault`: any of the
three keys may be absent (or hold JSON `null`, which `setdefault` treats the
same way for the two token fields). -/
structure RawStatus where
  pull_req_number : Option Nat
  installation_token : Option String
  token_expires_at : Option String
deriving DecidableEq, Repr

/-- `json.load(open(STATUS_FILE))`: the file may be absent
(`FileNotFoundError`, recovered as `{}`), unparseable (uncaught
`JSONDecodeError`), or parsed. -/
inductive FileRead where
  | absent
  | corrupt (err : String)
  | ok (raw : RawStatus)

/-- The three `status.setdefault(...)` calls in `main`. -/
def applyDefaults (raw : RawStatus) : Status :=
  ⟨raw.pull_req_number.getD 0, raw.installation_token, raw.token_expires_at⟩

/-- The serialized form of an in-memory status record. -/
def toRaw (st : Status) : RawStatus :=
  ⟨some st.pull_req_number, st.installation_token, st.token_expires_at⟩

/-- `main()` after a successful status load: `setdefault` the three fields,
obtain or refresh the token (aborting on failure), load the template
(aborting on failure), poll, and — only when `poll` returns normally —
overwrite the status file.  `templateLoad` models the
`open(MESSAGE_PATH).read()` at line 179.  `Except.ok (saved, res)` means the
run completed and `json.dump` overwrote the status file with `saved` (which
is `res.status`, the record as mutated by the token refresh and the polling
loop); `Except.error` means the run aborted with no state write. -/
def mainRunLoaded (net : Net) (now : Int)
    (client_id private_key repo_name : String) (ops : GithubOps)
    (templateLoad : Except String Unit) (autoClose : Bool)
    (raw : RawStatus) (pulls : List PullRequest) :
    Except String (Status × PollResult) :=
  let status := applyDefaults raw
  match (get_or_refresh_token net now status client_id private_key
      repo_name).1 with
  | Except.error e => Except.error e
  | Except.ok (_token, status1) =>
    match templateLoad with
    | Except.error e => Except.error e
    | Except.ok _ =>
      match poll ops autoClose status1 pulls with
      | Except.error e => Except.error e
      | Except.ok res => Except.ok (res.status, res)

/-- `main()` from the status load onward: a missing file is recovered as an
empty record, a corrupt one aborts the run (uncaught `JSONDecodeError`). -/
def mainRun (net : Net) (now : Int) (client_id private_key repo_name : String)
    (ops : GithubOps) (templateLoad : Except String Unit) (autoClose : Bool)
    (file : FileRead) (pulls : List PullRequest) :
    Except String (Status × PollResult) :=
  match file with
  | FileRead.corrupt err => Except.error err
  | FileRead.absent =>
    mainRunLoaded net now client_id private_key repo_name ops templateLoad
      autoClose ⟨none, none, none⟩ pulls
  | FileRead.ok raw =>
    mainRunLoaded net now client_id private_key repo_name ops templateLoad
      autoClose raw pulls

/-- A run environment: everything one invocation of `main` depends on
besides the status file contents. -/
structure RunEnv where
  net : Net
  now : Int
  ops : GithubOps
  templateLoad : Except String Unit
  autoClose : Bool
  pulls : List PullRequest

/-- A sequence of runs, each loading the status the previous run saved; an
aborted run leaves the file (hence the carried status) untouched. -/
def chainRuns (client_id private_key repo_name : String) :
    Status → List RunEnv → Status
  | st, [] => st
  | st, env :: rest =>
    match mainRun env.net env.now client_id private_key repo_name env.ops
        env.templateLoad env.autoClose (FileRead.ok (toRaw st)) env.pulls with
    | Except.error _ => chainRuns client_id private_key repo_name st rest
    | Except.ok (st', _) => chainRuns client_id private_key repo_name st' rest

/-- `strictlyDescending pulls`: the iteration order of `poll` on a real
repository — pull-request numbers strictly decrease (newest first). -/
def strictlyDescending : List PullRequest → Bool
  | [] => true
  | [_] => true
  | a :: b :: rest => b.number < a.number && strictlyDescending (b :: rest)

/-- The stale-expiry condition of the token cache: the cached expiry is
absent, unparseable (which includes the empty string), or at most 300
seconds after `now`. -/
def expiryStale (now : Int) : Option String → Prop
  | none => True
  | some e =>
    parseTimestamp e = none ∨ ∃ ts, parseTimestamp e = some ts ∧ ts ≤ now + 300

/-! ### Concrete fixtures (used by witnesses and counterexamples) -/

/-- A network on which both credential-exchange calls succeed. -/
def okNet : Net where
  jwt_encode := fun _ _ _ _ => "jwt"
  org_installation := fun _ _ => ⟨200, "", 7⟩
  access_tokens := fun _ _ => ⟨201, "", "tok7", "2030-01-01T00:00:00Z"⟩

/-- GitHub operations on which everything succeeds and no pull request has
existing comments. -/
def okOps : GithubOps where
  render := fun u => Except.ok ("hello " ++ u)
  get_issue_comments := fun _ => Except.ok []
  create_issue_comment := fun _ _ => Except.ok ()
  edit_close := fun _ => Except.ok ()

/-- Operations on which posting succeeds but closing fails. -/
def closeFailOps : GithubOps where
  render := fun u => Except.ok ("hi " ++ u)
  get_issue_comments := fun _ => Except.ok []
  create_issue_comment := fun _ _ => Except.ok ()
  edit_close := fun _ => Except.error "close failed"

/-- Operations on which template rendering fails. -/
def renderFailOps : GithubOps where
  render := fun _ => Except.error "TemplateError"
  get_issue_comments := fun _ => Except.ok []
  create_issue_comment := fun _ _ => Except.ok ()
  edit_close := fun _ => Except.ok ()

/-- Operations on which fetching existing comments fails. -/
def fetchFailOps : GithubOps where
  render := fun u => Except.ok ("hello " ++ u)
  get_issue_comments := fun _ => Except.error "fetch failed"
  create_issue_comment := fun _ _ => Except.ok ()
  edit_close := fun _ => Except.ok ()

/-- Operations on which every pull request already carries a comment that
contains the rendered text for user `carol`. -/
def dupOps : GithubOps where
  render := fun u => Except.ok ("hello " ++ u)
  get_issue_comments := fun _ => Except.ok [⟨"xx hello carol yy"⟩]
  create_issue_comment := fun _ _ => Except.ok ()
  edit_close := fun _ => Except.ok ()

/-- A list with one closed and one open pull request, newest first. -/
def closedPulls : List PullRequest :=
  [⟨5, "a", "t", some "2024-01-01T00:00:00Z"⟩, ⟨4, "b", "t", none⟩]

/-! ### Helper lemmas -/

theorem listStartsWith_iff (n l : List Char) :
    listStartsWith l n = true ↔ ∃ r, l = n ++ r := by
  induction n generalizing l with
  | nil => simp [listStartsWith]
  | cons d ds ih =>
    cases l with
    | nil => simp [listStartsWith]
    | cons c cs =>
      simp only [listStartsWith, Bool.and_eq_true, beq_iff_eq, ih,
        List.cons_append, List.cons.injEq]
      exact ⟨fun ⟨h1, r, h2⟩ => ⟨r, h1, h2⟩, fun ⟨r, h1, h2⟩ => ⟨h1, r, h2⟩⟩

theorem listOccurs_iff (hay n : List Char) :
    listOccurs hay n = true ↔ ∃ pre post, hay = pre ++ n ++ post := by
  induction hay with
  | nil =>
    simp only [listOccurs, List.isEmpty_iff]
    constructor
    · rintro rfl; exact ⟨[], [], rfl⟩
    · rintro ⟨pre, post, h⟩
      rcases List.append_eq_nil.mp h.symm with ⟨h1, h2⟩
      exact (List.append_eq_nil.mp h1).2
  | cons c cs ih =>
    simp only [listOccurs, Bool.or_eq_true, listStartsWith_iff, ih]
    constructor
    · rintro (⟨r, h⟩ | ⟨pre, post, rfl⟩)
      · exact ⟨[], r, by simpa using h⟩
      · exact ⟨c :: pre, post, by simp⟩
    · rintro ⟨pre, post, h⟩
      cases pre with
      | nil => exact Or.inl ⟨post, by simpa using h⟩
      | cons x xs =>
        simp only [List.cons_append, List.cons.injEq] at h
        exact Or.inr ⟨xs, post, h.2⟩

theorem pyStripList_decomp (l : List Char) :
    ∃ a b, l = a ++ pyStripList l ++ b := by
  refine ⟨l.takeWhile Char.isWhitespace,
    ((l.dropWhile Char.isWhitespace).reverse.takeWhile Char.isWhitespace).reverse,
    ?_⟩
  unfold pyStripList
  conv_lhs =>
    rw [← List.takeWhile_append_dropWhile (p := Char.isWhitespace) (l := l)]
  rw [List.append_assoc]
  congr 1
  rw [← List.reverse_append, List.takeWhile_append_dropWhile,
    List.reverse_reverse]

theorem strContains_pyStrip (hay needle : String)
    (h : strContains hay needle = true) :
    strContains hay (pyStrip needle) = true := by
  unfold strContains at h ⊢
  rw [listOccurs_iff] at h ⊢
  obtain ⟨pre, post, hh⟩ := h
  obtain ⟨a, b, hd⟩ := pyStripList_decomp needle.data
  refine ⟨pre ++ a, b ++ post, ?_⟩
  show hay.data = (pre ++ a) ++ pyStripList needle.data ++ (b ++ post)
  set s := pyStripList needle.data with hs
  rw [hh, hd]
  simp [List.append_assoc]

theorem handle_pull_mark_le (ops : GithubOps) (ac : Bool) (st : Status)
    (pull : PullRequest) (comment : String) :
    st.pull_req_number ≤
      (handle_pull ops ac st pull comment).status.pull_req_number := by
  unfold handle_pull
  repeat' split
  all_goals simp [Nat.le_max_left]

theorem handle_pull_status_eq (ops : GithubOps) (ac : Bool) (st : Status)
    (pull : PullRequest) (comment : String) :
    (handle_pull ops ac st pull comment).status = st ∨
    ((handle_pull ops ac st pull comment).outcome = PullOutcome.posted ∧
      (handle_pull ops ac st pull comment).status =
        { st with pull_req_number := max st.pull_req_number pull.number }) := by
  unfold handle_pull
  repeat' split
  all_goals simp

theorem handle_pull_status_of_ne_posted (ops : GithubOps) (ac : Bool)
    (st : Status) (pull : PullRequest) (comment : String)
    (h : (handle_pull ops ac st pull comment).outcome ≠ PullOutcome.posted) :
    (handle_pull ops ac st pull comment).status = st := by
  rcases handle_pull_status_eq ops ac st pull comment with h1 | ⟨h1, _⟩
  · exact h1
  · exact absurd h1 h

theorem handle_pull_outcome_ne_broke (ops : GithubOps) (ac : Bool)
    (st : Status) (pull : PullRequest) (comment : String) :
    (handle_pull ops ac st pull comment).outcome ≠ PullOutcome.broke := by
  unfold handle_pull
  repeat' split
  all_goals simp

theorem handle_pull_effects_mem (ops : GithubOps) (ac : Bool) (st : Status)
    (pull : PullRequest) (comment : String) (eff : Effect)
    (h : eff ∈ (handle_pull ops ac st pull comment).effects) :
    effectNumber eff = pull.number ∧ pull.closed_at = none := by
  unfold handle_pull at h
  repeat' split at h
  all_goals simp_all [effectNumber]
  all_goals (rcases h with rfl | rfl <;> rfl)

theorem pollLoop_mark_le (ops : GithubOps) (ac : Bool) (th : Nat) :
    ∀ (pulls : List PullRequest) (st : Status) (res : PollResult),
      pollLoop ops ac th pulls st = Except.ok res →
      st.pull_req_number ≤ res.status.pull_req_number := by
  intro pulls
  induction pulls with
  | nil =>
    intro st res h
    simp only [pollLoop, Except.ok.injEq] at h
    subst h
    exact le_refl _
  | cons pull rest ih =>
    intro st res h
    by_cases hle : pull.number ≤ th
    · simp only [pollLoop, if_pos hle, Except.ok.injEq] at h
      subst h
      exact le_refl _
    · cases hr : ops.render pull.user_login with
      | error e =>
        simp only [pollLoop, if_neg hle, hr] at h
        exact Except.noConfusion h
      | ok comment =>
        cases hrec : pollLoop ops ac th rest
            (handle_pull ops ac st pull comment).status with
        | error e =>
          simp only [pollLoop, if_neg hle, hr, hrec] at h
          exact Except.noConfusion h
        | ok res' =>
          simp only [pollLoop, if_neg hle, hr, hrec, Except.ok.injEq] at h
          subst h
          show st.pull_req_number ≤ res'.status.pull_req_number
          exact le_trans (handle_pull_mark_le ops ac st pull comment)
            (ih _ _ hrec)

theorem pollLoop_effects_mem (ops : GithubOps) (ac : Bool) (th : Nat) :
    ∀ (pulls : List PullRequest) (st : Status) (res : PollResult),
      pollLoop ops ac th pulls st = Except.ok res →
      ∀ eff ∈ res.effects, ∃ p, p ∈ pulls ∧ p.number = effectNumber eff ∧
        th < p.number ∧ p.closed_at = none := by
  intro pulls
  induction pulls with
  | nil =>
    intro st res h
    simp only [pollLoop, Except.ok.injEq] at h
    subst h
    intro eff heff
    exact absurd heff (by simp)
  | cons pull rest ih =>
    intro st res h
    by_cases hle : pull.number ≤ th
    · simp only [pollLoop, if_pos hle, Except.ok.injEq] at h
      subst h
      intro eff heff
      exact absurd heff (by simp)
    · cases hr : ops.render pull.user_login with
      | error e =>
        simp only [pollLoop, if_neg hle, hr] at h
        exact Except.noConfusion h
      | ok comment =>
        cases hrec : pollLoop ops ac th rest
            (handle_pull ops ac st pull comment).status with
        | error e =>
          simp only [pollLoop, if_neg hle, hr, hrec] at h
          exact Except.noConfusion h
        | ok res' =>
          simp only [pollLoop, if_neg hle, hr, hrec, Except.ok.injEq] at h
          subst h
          intro eff heff
          rcases List.mem_append.mp heff with hl | hr'
          · obtain ⟨hnum, hopen⟩ :=
              handle_pull_effects_mem ops ac st pull comment eff hl
            exact ⟨pull, List.mem_cons_self _ _, hnum.symm,
              Nat.lt_of_not_le hle, hopen⟩
          · obtain ⟨p, hp, hnum, hth, hopen⟩ := ih _ _ hrec eff hr'
            exact ⟨p, List.mem_cons_of_mem _ hp, hnum, hth, hopen⟩

theorem pollLoop_outcomes_shape (ops : GithubOps) (ac : Bool) (th : Nat) :
    ∀ (pulls : List PullRequest) (st : Status) (res : PollResult),
      pollLoop ops ac th pulls st = Except.ok res →
      res.outcomes.map Prod.fst =
        (pulls.takeWhile (fun p => decide (th < p.number))).map
          PullRequest.number ++
        ((pulls.dropWhile (fun p => decide (th < p.number))).head?.map
          PullRequest.number).toList := by
  intro pulls
  induction pulls with
  | nil =>
    intro st res h
    simp only [pollLoop, Except.ok.injEq] at h
    subst h
    simp
  | cons pull rest ih =>
    intro st res h
    by_cases hle : pull.number ≤ th
    · simp only [pollLoop, if_pos hle, Except.ok.injEq] at h
      subst h
      have hd : decide (th < pull.number) = false := by
        simp [Nat.not_lt.mpr hle]
      simp [List.takeWhile_cons, List.dropWhile_cons, hd]
    · cases hr : ops.render pull.user_login with
      | error e =>
        simp only [pollLoop, if_neg hle, hr] at h
        exact Except.noConfusion h
      | ok comment =>
        cases hrec : pollLoop ops ac th rest
            (handle_pull ops ac st pull comment).status with
        | error e =>
          simp only [pollLoop, if_neg hle, hr, hrec] at h
          exact Except.noConfusion h
        | ok res' =>
          simp only [pollLoop, if_neg hle, hr, hrec, Except.ok.injEq] at h
          subst h
          have hd : decide (th < pull.number) = true := by
            simp [Nat.lt_of_not_le hle]
          simp [List.takeWhile_cons, List.dropWhile_cons, hd, ih _ _ hrec]

theorem pollLoop_all_above (ops : GithubOps) (ac : Bool) (th : Nat) :
    ∀ (pulls : List PullRequest) (st : Status) (res : PollResult),
      (∀ p ∈ pulls, th < p.number) →
      pollLoop ops ac th pulls st = Except.ok res →
      res.outcomes.map Prod.fst = pulls.map PullRequest.number ∧
      ∀ o ∈ res.outcomes, o.2 ≠ PullOutcome.broke := by
  intro pulls
  induction pulls with
  | nil =>
    intro st res _ h
    simp only [pollLoop, Except.ok.injEq] at h
    subst h
    simp
  | cons pull rest ih =>
    intro st res hall h
    have hle : ¬pull.number ≤ th :=
      Nat.not_le.mpr (hall pull (List.mem_cons_self _ _))
    cases hr : ops.render pull.user_login with
    | error e =>
      simp only [pollLoop, if_neg hle, hr] at h
      exact Except.noConfusion h
    | ok comment =>
      cases hrec : pollLoop ops ac th rest
          (handle_pull ops ac st pull comment).status with
      | error e =>
        simp only [pollLoop, if_neg hle, hr, hrec] at h
        exact Except.noConfusion h
      | ok res' =>
        simp only [pollLoop, if_neg hle, hr, hrec, Except.ok.injEq] at h
        subst h
        obtain ⟨ih1, ih2⟩ := ih _ _
          (fun p hp => hall p (List.mem_cons_of_mem _ hp)) hrec
        constructor
        · simp [ih1]
        · intro o ho
          rcases List.mem_cons.mp ho with rfl | ho'
          · exact handle_pull_outcome_ne_broke ops ac st pull comment
          · exact ih2 o ho'

theorem strictlyDescending_tail {a : PullRequest} {rest : List PullRequest}
    (h : strictlyDescending (a :: rest) = true) :
    strictlyDescending rest = true := by
  cases rest with
  | nil => rfl
  | cons b rs =>
    simp only [strictlyDescending, Bool.and_eq_true] at h
    exact h.2

theorem strictlyDescending_head_gt {a : PullRequest} {rest : List PullRequest}
    (h : strictlyDescending (a :: rest) = true) :
    ∀ p ∈ rest, p.number < a.number := by
  induction rest generalizing a with
  | nil => intro p hp; exact absurd hp (by simp)
  | cons b rs ih =>
    simp only [strictlyDescending, Bool.and_eq_true, decide_eq_true_eq] at h
    intro p hp
    rcases List.mem_cons.mp hp with rfl | hp'
    · exact h.1
    · exact Nat.lt_trans (ih h.2 p hp') h.1

theorem strictlyDescending_number_inj {pulls : List PullRequest}
    (h : strictlyDescending pulls = true) :
    ∀ p ∈ pulls, ∀ q ∈ pulls, p.number = q.number → p = q := by
  induction pulls with
  | nil => intro p hp; exact absurd hp (by simp)
  | cons a rest ih =>
    intro p hp q hq heq
    rcases List.mem_cons.mp hp with rfl | hp' <;>
      rcases List.mem_cons.mp hq with rfl | hq'
    · rfl
    · exact absurd heq
        (Nat.ne_of_gt (strictlyDescending_head_gt h q hq'))
    · exact absurd heq.symm
        (Nat.ne_of_gt (strictlyDescending_head_gt h p hp'))
    · exact ih (strictlyDescending_tail h) p hp' q hq' heq

theorem refreshResult_fst_ok (net : Net) (now : Int) (status : Status)
    (cid key repo : String) (t : String) (st1 : Status)
    (h : (refreshResult net now status cid key repo).1 = Except.ok (t, st1)) :
    st1.pull_req_number = status.pull_req_number := by
  unfold refreshResult at h
  rcases hm : get_installation_token net now cid key repo with ⟨r, calls⟩
  rw [hm] at h
  cases r with
  | error e => exact Except.noConfusion h
  | ok v =>
    rcases v with ⟨tok, exp⟩
    simp only [Except.ok.injEq, Prod.mk.injEq] at h
    rw [← h.2]

theorem get_or_refresh_token_ok_mark (net : Net) (now : Int) (status : Status)
    (cid key repo : String) (t : String) (st1 : Status)
    (h : (get_or_refresh_token net now status cid key repo).1 =
      Except.ok (t, st1)) :
    st1.pull_req_number = status.pull_req_number := by
  unfold get_or_refresh_token at h
  split at h
  · split at h
    · split at h
      · simp only [Except.ok.injEq, Prod.mk.injEq] at h
        rw [← h.2]
      · exact refreshResult_fst_ok net now status cid key repo t st1 h
    · exact refreshResult_fst_ok net now status cid key repo t st1 h
  · exact refreshResult_fst_ok net now status cid key repo t st1 h

/-- One loop iteration that gets past the threshold check and the render:
the loop always continues into the rest of the list, from the status the
handler returned. -/
theorem pollLoop_cons_step (ops : GithubOps) (ac : Bool) (th : Nat)
    (pull : PullRequest) (rest : List PullRequest) (st : Status)
    (comment : String) (hth : th < pull.number)
    (hrender : ops.render pull.user_login = Except.ok comment) :
    pollLoop ops ac th (pull :: rest) st =
      (pollLoop ops ac th rest
          (handle_pull ops ac st pull comment).status).map
        (fun res => ⟨res.status,
          (handle_pull ops ac st pull comment).effects ++ res.effects,
          (pull.number, (handle_pull ops ac st pull comment).outcome) ::
            res.outcomes⟩) := by
  have hle : ¬pull.number ≤ th := Nat.not_le.mpr hth
  simp only [pollLoop, if_neg hle, hrender]
  cases pollLoop ops ac th rest (handle_pull ops ac st pull comment).status <;>
    simp [Except.map]

/-- When both exchange calls succeed, the refresh path returns the issued
token, stores it with its expiry, and performs exactly the lookup call
followed by the issuance call. -/
theorem refreshResult_eval (net : Net) (now : Int) (st : Status)
    (cid key repo : String) (r1 : InstallationResponse) (r2 : TokenResponse)
    (h1 : r1 = net.org_installation
      (net.jwt_encode (now - 60) (now + 600) cid key) (orgOf repo))
    (h2 : r2 = net.access_tokens
      (net.jwt_encode (now - 60) (now + 600) cid key) r1.id)
    (h200 : r1.status_code = 200) (h201 : r2.status_code = 201) :
    refreshResult net now st cid key repo =
      (Except.ok (r2.token,
        { st with installation_token := some r2.token,
                  token_expires_at := some r2.expires_at }),
       [NetCall.installationLookup (orgOf repo),
        NetCall.tokenIssuance r1.id]) := by
  subst h1
  subst h2
  simp [refreshResult, get_installation_token, h200, h201]

/-- Whenever the cached expiry is stale (absent, unparseable, or within 300
seconds of `now`), `get_or_refresh_token` takes the fresh-token path. -/
theorem get_or_refresh_token_stale (net : Net) (now : Int) (st : Status)
    (cid key repo : String) (hstale : expiryStale now st.token_expires_at) :
    get_or_refresh_token net now st cid key repo =
      refreshResult net now st cid key repo := by
  unfold get_or_refresh_token
  cases hexp : st.token_expires_at with
  | none => simp [truthy, hexp]
  | some e =>
    rw [hexp] at hstale
    rcases hstale with hpn | ⟨ts, hp, hle⟩
    · split
      · simp [hpn]
      · rfl
    · split
      · simp only [Option.getD_some, hp]
        rw [if_neg (not_lt.mpr hle)]
      · rfl

/-- A completed run loaded from file `raw` saved a status whose mark is at
least the loaded mark. -/
theorem mainRun_ok_mark (net : Net) (now : Int) (cid key repo : String)
    (ops : GithubOps) (tl : Except String Unit) (ac : Bool) (raw : RawStatus)
    (pulls : List PullRequest) (saved : Status) (res : PollResult)
    (h : mainRun net now cid key repo ops tl ac (FileRead.ok raw) pulls =
      Except.ok (saved, res)) :
    raw.pull_req_number.getD 0 ≤ saved.pull_req_number := by
  cases htok : (get_or_refresh_token net now (applyDefaults raw) cid key
      repo).1 with
  | error e =>
    simp only [mainRun, mainRunLoaded, htok] at h
    exact Except.noConfusion h
  | ok v =>
    rcases v with ⟨tok, st1⟩
    have hmark : st1.pull_req_number = raw.pull_req_number.getD 0 :=
      get_or_refresh_token_ok_mark net now (applyDefaults raw) cid key repo
        tok st1 htok
    cases tl with
    | error e =>
      simp only [mainRun, mainRunLoaded, htok] at h
      exact Except.noConfusion h
    | ok u =>
      cases hp : poll ops ac st1 pulls with
      | error e =>
        simp only [mainRun, mainRunLoaded, htok, hp] at h
        exact Except.noConfusion h
      | ok res' =>
        simp only [mainRun, mainRunLoaded, htok, hp, Except.ok.injEq,
          Prod.mk.injEq] at h
        rw [← h.1, ← hmark]
        exact pollLoop_mark_le ops ac st1.pull_req_number pulls st1 res' hp

/-- The saved mark never decreases across a chain of runs. -/
theorem chainRuns_mark_le (cid key repo : String) (st : Status)
    (envs : List RunEnv) :
    st.pull_req_number ≤ (chainRuns cid key repo st envs).pull_req_number := by
  induction envs generalizing st with
  | nil => exact le_refl _
  | cons env rest ih =>
    simp only [chainRuns]
    cases hm : mainRun env.net env.now cid key repo env.ops env.templateLoad
        env.autoClose (FileRead.ok (toRaw st)) env.pulls with
    | error e => exact ih st
    | ok pr =>
      rcases pr with ⟨st', res⟩
      have h1 : st.pull_req_number ≤ st'.pull_req_number := by
        have := mainRun_ok_mark env.net env.now cid key repo env.ops
          env.templateLoad env.autoClose (toRaw st) env.pulls st' res hm
        simpa [toRaw] using this
      exact le_trans h1 (ih st')

/-! ### Claim theorems -/

/-- C1: when the cached token is present (nonempty) and the cached expiry
parses to a timestamp more than 300 seconds after the current time,
`get_or_refresh_token` returns the cached token with the state unchanged
and performs no credential-exchange network calls; when the cached expiry
is absent, unparseable, or within 300 seconds of the current time (and both
exchange calls succeed), it performs exactly one installation-lookup call
followed by one token-issuance call, stores the new token and expiry into
the state, and returns the new token. -/
theorem C1_token_cache (net : Net) (now : Int) (st : Status)
    (cid key repo : String) :
    (∀ t e ts, st.installation_token = some t → t ≠ "" →
      st.token_expires_at = some e → parseTimestamp e = some ts →
      now + 300 < ts →
      get_or_refresh_token net now st cid key repo =
        (Except.ok (t, st), [])) ∧
    (expiryStale now st.token_expires_at →
      ∀ r1 r2,
        r1 = net.org_installation
          (net.jwt_encode (now - 60) (now + 600) cid key) (orgOf repo) →
        r2 = net.access_tokens
          (net.jwt_encode (now - 60) (now + 600) cid key) r1.id →
        r1.status_code = 200 → r2.status_code = 201 →
        get_or_refresh_token net now st cid key repo =
          (Except.ok (r2.token,
            { st with installation_token := some r2.token,
                      token_expires_at := some r2.expires_at }),
           [NetCall.installationLookup (orgOf repo),
            NetCall.tokenIssuance r1.id])) := by
  constructor
  · intro t e ts ht htne he hp hgt
    have hene : e ≠ "" := by
      rintro rfl
      simp [parseTimestamp] at hp
    unfold get_or_refresh_token
    rw [ht, he]
    simp [truthy, htne, hene, hp, hgt]
  · intro hstale r1 r2 h1 h2 h200 h201
    rw [get_or_refresh_token_stale net now st cid key repo hstale]
    exact refreshResult_eval net now st cid key repo r1 r2 h1 h2 h200 h201

/-- Witness for C1: at `now = 0`, a token expiring in 2030 is served from
cache with no network call; with the expiry absent, the two exchange calls
happen, the fresh token is stored, and it is returned. -/
theorem C1_token_cache_witness :
    get_or_refresh_token okNet 0
        ⟨5, some "tok", some "2030-01-01T00:00:00Z"⟩ "cid" "key" "org/repo" =
      (Except.ok ("tok", ⟨5, some "tok", some "2030-01-01T00:00:00Z"⟩), []) ∧
    get_or_refresh_token okNet 0 ⟨5, some "tok", none⟩ "cid" "key"
        "org/repo" =
      (Except.ok ("tok7", ⟨5, some "tok7", some "2030-01-01T00:00:00Z"⟩),
       [NetCall.installationLookup "org", NetCall.tokenIssuance 7]) := by
  constructor
  · exact (C1_token_cache okNet 0
      ⟨5, some "tok", some "2030-01-01T00:00:00Z"⟩ "cid" "key" "org/repo").1
      "tok" "2030-01-01T00:00:00Z" 1893456000 rfl (by decide) rfl (by decide)
      (by decide)
  · exact (C1_token_cache okNet 0 ⟨5, some "tok", none⟩ "cid" "key"
      "org/repo").2 trivial _ _ rfl rfl rfl rfl

/-- C10: a present cached token with an unparseable `token_expires_at`
raises nothing: `get_or_refresh_token` falls through to the fresh-token
path (its result is exactly the refresh result), and behaves identically to
the expired-expiry case. -/
theorem C10_malformed_expiry_swallowed (net : Net) (now : Int) (st : Status)
    (cid key repo : String) (t e egood : String) (ts : Int)
    (ht : st.installation_token = some t) (htne : t ≠ "")
    (hbad : parseTimestamp e = none)
    (hgood : parseTimestamp egood = some ts) (hts : ts ≤ now + 300) :
    get_or_refresh_token net now { st with token_expires_at := some e }
        cid key repo =
      refreshResult net now { st with token_expires_at := some e }
        cid key repo ∧
    get_or_refresh_token net now { st with token_expires_at := some e }
        cid key repo =
      get_or_refresh_token net now { st with token_expires_at := some egood }
        cid key repo := by
  have hs1 : expiryStale now
      ({ st with token_expires_at := some e } : Status).token_expires_at :=
    Or.inl hbad
  have hs2 : expiryStale now
      ({ st with token_expires_at := some egood } : Status).token_expires_at :=
    Or.inr ⟨ts, hgood, hts⟩
  have h1 := get_or_refresh_token_stale net now
    { st with token_expires_at := some e } cid key repo hs1
  have h2 := get_or_refresh_token_stale net now
    { st with token_expires_at := some egood } cid key repo hs2
  refine ⟨h1, ?_⟩
  rw [h1, h2]
  unfold refreshResult
  rcases get_installation_token net now cid key repo with ⟨r, calls⟩
  cases r with
  | error err => rfl
  | ok v => rcases v with ⟨tok, exp⟩; rfl

/-- Witness for C10: a malformed expiry string `"garbage"` is treated
exactly like an expiry already in the past. -/
theorem C10_malformed_expiry_swallowed_witness :
    get_or_refresh_token okNet 0
        ⟨2, some "tok", some "garbage"⟩ "cid" "key" "org/repo" =
      refreshResult okNet 0 ⟨2, some "tok", some "garbage"⟩ "cid" "key"
        "org/repo" ∧
    get_or_refresh_token okNet 0
        ⟨2, some "tok", some "garbage"⟩ "cid" "key" "org/repo" =
      get_or_refresh_token okNet 0
        ⟨2, some "tok", some "1970-01-01T00:00:00Z"⟩ "cid" "key"
        "org/repo" :=
  C10_malformed_expiry_swallowed okNet 0 ⟨2, some "tok", none⟩ "cid" "key"
    "org/repo" "tok" "garbage" "1970-01-01T00:00:00Z" 0 rfl (by decide) rfl
    rfl (by decide)

/-- C2 counterexample: a template-rendering failure is NOT caught — it
aborts the whole run (here the run returns the propagated error and never
reaches the state write), contradicting the claim that every exception
raised while handling a pull request, including a template-rendering
failure, is caught and does not abort the run. -/
theorem C2_counterexample_render_aborts :
    mainRun okNet 0 "cid" "key" "org/repo" renderFailOps (Except.ok ())
        false (FileRead.ok ⟨some 0, none, none⟩)
        [⟨1, "alice", "Title", none⟩] =
      Except.error "TemplateError" := rfl

/-- C2 (amended): every exception raised inside the per-pull-request
`try:` block — the closed-check, comment fetch, comment post, or close —
is caught: the mark (indeed the whole status) is not advanced for that pull
request, the run is not aborted, and the loop proceeds to the next (older)
pull request; a template-rendering failure, which occurs before the `try:`
block, is not caught and aborts the run. -/
theorem C2_try_block_errors_caught (ops : GithubOps) (autoClose : Bool)
    (threshold : Nat) (pull : PullRequest) (rest : List PullRequest)
    (st : Status) (comment : String)
    (hth : threshold < pull.number)
    (hrender : ops.render pull.user_login = Except.ok comment)
    (herr : (handle_pull ops autoClose st pull comment).outcome =
      PullOutcome.errored) :
    (handle_pull ops autoClose st pull comment).status = st ∧
    pollLoop ops autoClose threshold (pull :: rest) st =
      (pollLoop ops autoClose threshold rest st).map
        (fun res => ⟨res.status,
          (handle_pull ops autoClose st pull comment).effects ++ res.effects,
          (pull.number, PullOutcome.errored) :: res.outcomes⟩) := by
  have hstat : (handle_pull ops autoClose st pull comment).status = st :=
    handle_pull_status_of_ne_posted ops autoClose st pull comment
      (by rw [herr]; decide)
  refine ⟨hstat, ?_⟩
  rw [pollLoop_cons_step ops autoClose threshold pull rest st comment hth
    hrender, hstat, herr]

/-- Witness for the amended C2: a comment-fetch failure on pull request #4
leaves the status unchanged and the loop continues to #2. -/
theorem C2_try_block_errors_caught_witness :
    (handle_pull fetchFailOps false ⟨1, none, none⟩ ⟨4, "bob", "T", none⟩
      "hello bob").status = ⟨1, none, none⟩ ∧
    pollLoop fetchFailOps false 1
        [⟨4, "bob", "T", none⟩, ⟨2, "c", "T", none⟩] ⟨1, none, none⟩ =
      (pollLoop fetchFailOps false 1 [⟨2, "c", "T", none⟩]
          ⟨1, none, none⟩).map
        (fun res => ⟨res.status,
          (handle_pull fetchFailOps false ⟨1, none, none⟩
            ⟨4, "bob", "T", none⟩ "hello bob").effects ++ res.effects,
          (4, PullOutcome.errored) :: res.outcomes⟩) :=
  C2_try_block_errors_caught fetchFailOps false 1 ⟨4, "bob", "T", none⟩
    [⟨2, "c", "T", none⟩] ⟨1, none, none⟩ "hello bob" (by decide) rfl rfl

/-- C3 counterexample: with `autoClose` on, the comment post on #3
succeeds (the post effect is in the trace) but the close fails, and
`pull_req_number` stays 0 — it is NOT advanced to at least 3, contradicting
the claim that a successful comment post always advances the mark,
including when the subsequent close call fails. -/
theorem C3_counterexample_close_failure :
    poll closeFailOps true ⟨0, none, none⟩ [⟨3, "alice", "T", none⟩] =
      Except.ok ⟨⟨0, none, none⟩, [Effect.postComment 3 "hi alice"],
        [(3, PullOutcome.errored)]⟩ ∧
    (0 : Nat) < 3 :=
  ⟨rfl, by decide⟩

/-- C3 (amended): the mark advances to `max(old, p.number)` exactly when
the whole `try:` body for `p` succeeds — closed-check passed, no duplicate,
post succeeded, and (when `autoClose` is on) the close succeeded too; a
close failure after a successful post leaves the mark unchanged, as does
any other failure inside the `try:` block. -/
theorem C3_mark_advance (ops : GithubOps) (autoClose : Bool) (st : Status)
    (pull : PullRequest) (comment : String) (cs : List Comment)
    (hopen : pull.closed_at = none)
    (hfetch : ops.get_issue_comments pull.number = Except.ok cs)
    (hnodup : cs.any (fun c => strContains c.body (pyStrip comment)) = false)
    (hpost : ops.create_issue_comment pull.number comment = Except.ok ()) :
    (autoClose = false →
      handle_pull ops autoClose st pull comment =
        ⟨{ st with pull_req_number := max st.pull_req_number pull.number },
         [Effect.postComment pull.number comment], PullOutcome.posted⟩) ∧
    (∀ u, autoClose = true → ops.edit_close pull.number = Except.ok u →
      handle_pull ops autoClose st pull comment =
        ⟨{ st with pull_req_number := max st.pull_req_number pull.number },
         [Effect.postComment pull.number comment, Effect.closePR pull.number],
         PullOutcome.posted⟩) ∧
    (∀ e, autoClose = true → ops.edit_close pull.number = Except.error e →
      handle_pull ops autoClose st pull comment =
        ⟨st, [Effect.postComment pull.number comment],
         PullOutcome.errored⟩) := by
  refine ⟨?_, ?_, ?_⟩
  · intro hac
    subst hac
    simp [handle_pull, hopen, hfetch, hnodup, hpost]
  · intro u hac hclose
    subst hac
    simp [handle_pull, hopen, hfetch, hnodup, hpost, hclose]
  · intro e hac hclose
    subst hac
    simp [handle_pull, hopen, hfetch, hnodup, hpost, hclose]

/-- Witness for the amended C3: on #3, a successful post with a failed
close leaves the mark at 0; a successful post without `autoClose` advances
the mark to 3. -/
theorem C3_mark_advance_witness :
    handle_pull closeFailOps true ⟨0, none, none⟩ ⟨3, "alice", "T", none⟩
        "hi alice" =
      ⟨⟨0, none, none⟩, [Effect.postComment 3 "hi alice"],
       PullOutcome.errored⟩ ∧
    handle_pull okOps false ⟨0, none, none⟩ ⟨3, "alice", "T", none⟩
        "hello alice" =
      ⟨⟨3, none, none⟩, [Effect.postComment 3 "hello alice"],
       PullOutcome.posted⟩ := by
  constructor
  · exact (C3_mark_advance closeFailOps true ⟨0, none, none⟩
      ⟨3, "alice", "T", none⟩ "hi alice" [] rfl rfl rfl rfl).2.2
      "close failed" rfl rfl
  · exact (C3_mark_advance okOps false ⟨0, none, none⟩
      ⟨3, "alice", "T", none⟩ "hello alice" [] rfl rfl rfl rfl).1 rfl

/-- C4: `pull_req_number` is monotonically non-decreasing — at every single
write (each is `max(old, number)`), across a whole polling loop, and across
every chain of runs in which each run loads the state the previous run
saved (aborted runs leave the file untouched). -/
theorem C4_mark_monotone (cid key repo : String) :
    (∀ (ops : GithubOps) (ac : Bool) (st : Status) (pull : PullRequest)
        (comment : String),
      st.pull_req_number ≤
        (handle_pull ops ac st pull comment).status.pull_req_number) ∧
    (∀ (ops : GithubOps) (ac : Bool) (th : Nat) (pulls : List PullRequest)
        (st : Status) (res : PollResult),
      pollLoop ops ac th pulls st = Except.ok res →
      st.pull_req_number ≤ res.status.pull_req_number) ∧
    (∀ (st : Status) (envs : List RunEnv),
      st.pull_req_number ≤
        (chainRuns cid key repo st envs).pull_req_number) :=
  ⟨handle_pull_mark_le,
   fun ops ac th pulls st res h => pollLoop_mark_le ops ac th pulls st res h,
   chainRuns_mark_le cid key repo⟩

/-- Witness for C4: a concrete completed loop starting at mark 0 ends at
mark 2 ≥ 0. -/
theorem C4_mark_monotone_witness :
    pollLoop okOps false 0 [⟨2, "a", "t", none⟩] ⟨0, none, none⟩ =
      Except.ok ⟨⟨2, none, none⟩, [Effect.postComment 2 "hello a"],
        [(2, PullOutcome.posted)]⟩ ∧
    (⟨0, none, none⟩ : Status).pull_req_number ≤
      (⟨2, none, none⟩ : Status).pull_req_number :=
  ⟨rfl, (C4_mark_monotone "cid" "key" "org/repo").2.1 okOps false 0
    [⟨2, "a", "t", none⟩] ⟨0, none, none⟩
    ⟨⟨2, none, none⟩, [Effect.postComment 2 "hello a"],
      [(2, PullOutcome.posted)]⟩ rfl⟩

/-- C5: on a newest-first list with strictly decreasing numbers, the loop
visits exactly the longest prefix of pull requests above the mark recorded
at the start of the run, plus at most the single breaker it stopped at —
nothing beyond it — and every posted comment lands on a pull request whose
number exceeds that starting mark. -/
theorem C5_stop_at_threshold (ops : GithubOps) (ac : Bool) (st : Status)
    (pulls : List PullRequest) (res : PollResult)
    (hsorted : strictlyDescending pulls = true)
    (hok : poll ops ac st pulls = Except.ok res) :
    res.outcomes.map Prod.fst =
      (pulls.takeWhile
        (fun p => decide (st.pull_req_number < p.number))).map
        PullRequest.number ++
      ((pulls.dropWhile
        (fun p => decide (st.pull_req_number < p.number))).head?.map
        PullRequest.number).toList ∧
    ∀ n body, Effect.postComment n body ∈ res.effects →
      st.pull_req_number < n := by
  constructor
  · exact pollLoop_outcomes_shape ops ac st.pull_req_number pulls st res hok
  · intro n body hmem
    obtain ⟨p, _, hnum, hth, _⟩ := pollLoop_effects_mem ops ac
      st.pull_req_number pulls st res hok (Effect.postComment n body) hmem
    rw [hnum] at hth
    exact hth

/-- Witness for C5: starting mark 5 over #10, #7, #5, #3 — the loop
handles #10 and #7, stops at #5, and #3 is never visited. -/
theorem C5_stop_at_threshold_witness :
    strictlyDescending
      [⟨10, "a", "t", none⟩, ⟨7, "b", "t", none⟩,
       ⟨5, "c", "t", none⟩, ⟨3, "d", "t", none⟩] = true ∧
    poll okOps false ⟨5, none, none⟩
        [⟨10, "a", "t", none⟩, ⟨7, "b", "t", none⟩,
         ⟨5, "c", "t", none⟩, ⟨3, "d", "t", none⟩] =
      Except.ok ⟨⟨10, none, none⟩,
        [Effect.postComment 10 "hello a", Effect.postComment 7 "hello b"],
        [(10, PullOutcome.posted), (7, PullOutcome.posted),
         (5, PullOutcome.broke)]⟩ ∧
    [(10, PullOutcome.posted), (7, PullOutcome.posted),
      (5, PullOutcome.broke)].map Prod.fst = [10, 7] ++ [5] ∧
    ∀ n body, Effect.postComment n body ∈
      [Effect.postComment 10 "hello a", Effect.postComment 7 "hello b"] →
      5 < n := by
  refine ⟨rfl, rfl, ?_, ?_⟩
  · decide
  · exact (C5_stop_at_threshold okOps false ⟨5, none, none⟩
      [⟨10, "a", "t", none⟩, ⟨7, "b", "t", none⟩,
       ⟨5, "c", "t", none⟩, ⟨3, "d", "t", none⟩]
      ⟨⟨10, none, none⟩,
        [Effect.postComment 10 "hello a", Effect.postComment 7 "hello b"],
        [(10, PullOutcome.posted), (7, PullOutcome.posted),
         (5, PullOutcome.broke)]⟩ rfl rfl).2

/-- C6: if some existing comment on a pull request contains the rendered
template text, the handler posts nothing, closes nothing, and leaves the
state unchanged (the code checks for the stripped text, which any comment
containing the full rendered text also contains), and the loop simply moves
on — independently of where the mark stands relative to the number. -/
theorem C6_duplicate_not_reposted (ops : GithubOps) (ac : Bool) (th : Nat)
    (st : Status) (pull : PullRequest) (rest : List PullRequest)
    (comment : String) (cs : List Comment) (c : Comment)
    (hfetch : ops.get_issue_comments pull.number = Except.ok cs)
    (hc : c ∈ cs)
    (hsub : strContains c.body comment = true) :
    (handle_pull ops ac st pull comment).status = st ∧
    (handle_pull ops ac st pull comment).effects = [] ∧
    (th < pull.number → ops.render pull.user_login = Except.ok comment →
      pollLoop ops ac th (pull :: rest) st =
        (pollLoop ops ac th rest st).map
          (fun res => ⟨res.status, res.effects,
            (pull.number, (handle_pull ops ac st pull comment).outcome) ::
              res.outcomes⟩)) := by
  have hany : cs.any (fun x => strContains x.body (pyStrip comment)) = true :=
    List.any_eq_true.mpr ⟨c, hc, strContains_pyStrip c.body comment hsub⟩
  have hmain : (handle_pull ops ac st pull comment).status = st ∧
      (handle_pull ops ac st pull comment).effects = [] := by
    cases hcl : pull.closed_at with
    | some t => simp [handle_pull, hcl]
    | none => simp [handle_pull, hcl, hfetch, hany]
  refine ⟨hmain.1, hmain.2, ?_⟩
  intro hth hrender
  rw [pollLoop_cons_step ops ac th pull rest st comment hth hrender,
    hmain.1, hmain.2]
  simp

/-- Witness for C6: #6 by `carol` already carries a comment containing
`"hello carol"`; nothing is posted and the state is untouched even though
the mark (0) is below 6. -/
theorem C6_duplicate_not_reposted_witness :
    (handle_pull dupOps false ⟨0, none, none⟩ ⟨6, "carol", "T", none⟩
      "hello carol").status = ⟨0, none, none⟩ ∧
    (handle_pull dupOps false ⟨0, none, none⟩ ⟨6, "carol", "T", none⟩
      "hello carol").effects = [] := by
  have h := C6_duplicate_not_reposted dupOps false 0 ⟨0, none, none⟩
    ⟨6, "carol", "T", none⟩ [] "hello carol" [⟨"xx hello carol yy"⟩]
    ⟨"xx hello carol yy"⟩ rfl (by decide) rfl
  exact ⟨h.1, h.2.1⟩

/-- C7: a pull request whose closed timestamp is set is never commented on
and never closed by the run (no effect carries its number), and examining
it leaves any state unchanged — regardless of the mark's position. -/
theorem C7_closed_never_touched (ops : GithubOps) (ac : Bool) (st : Status)
    (pulls : List PullRequest) (pull : PullRequest) (res : PollResult)
    (t : String)
    (hsorted : strictlyDescending pulls = true)
    (hmem : pull ∈ pulls)
    (hclosed : pull.closed_at = some t)
    (hok : poll ops ac st pulls = Except.ok res) :
    (∀ body, Effect.postComment pull.number body ∉ res.effects) ∧
    Effect.closePR pull.number ∉ res.effects ∧
    (∀ (st' : Status) (comment : String),
      handle_pull ops ac st' pull comment =
        ⟨st', [], PullOutcome.skippedClosed⟩) := by
  have key : ∀ eff, eff ∈ res.effects → effectNumber eff ≠ pull.number := by
    intro eff heff habs
    obtain ⟨p, hp, hnum, _, hopen⟩ := pollLoop_effects_mem ops ac
      st.pull_req_number pulls st res hok eff heff
    have : p = pull :=
      strictlyDescending_number_inj hsorted p hp pull hmem
        (by rw [hnum, habs])
    rw [this, hclosed] at hopen
    exact Option.noConfusion hopen
  refine ⟨?_, ?_, ?_⟩
  · intro body hmem'
    exact key (Effect.postComment pull.number body) hmem' rfl
  · intro hmem'
    exact key (Effect.closePR pull.number) hmem' rfl
  · intro st' comment
    simp [handle_pull, hclosed]

/-- Witness for C7: #5 is closed; the run over [#5 closed, #4 open] posts
only on #4 and no effect touches #5. -/
theorem C7_closed_never_touched_witness :
    poll okOps false ⟨0, none, none⟩ closedPulls =
      Except.ok ⟨⟨4, none, none⟩, [Effect.postComment 4 "hello b"],
        [(5, PullOutcome.skippedClosed), (4, PullOutcome.posted)]⟩ ∧
    (∀ body, Effect.postComment 5 body ∉
      [Effect.postComment 4 "hello b"]) := by
  refine ⟨rfl, ?_⟩
  have h := C7_closed_never_touched okOps false ⟨0, none, none⟩ closedPulls
    ⟨5, "a", "t", some "2024-01-01T00:00:00Z"⟩
    ⟨⟨4, none, none⟩, [Effect.postComment 4 "hello b"],
      [(5, PullOutcome.skippedClosed), (4, PullOutcome.posted)]⟩
    "2024-01-01T00:00:00Z" rfl (by decide) rfl rfl
  exact h.1

/-- C8 counterexample: a run that passed every pre-polling stage (the
token refresh succeeded, the template loaded) can still end without a
state write — a template-rendering failure during polling aborts it — so
it is not true that only a configuration, credential, state-load, or
template-load failure before polling prevents the state write. -/
theorem C8_counterexample_no_save_after_polling_started :
    (get_or_refresh_token okNet 0 (applyDefaults ⟨some 4, none, none⟩)
      "cid" "key" "org/repo").1 =
      Except.ok ("tok7", ⟨4, some "tok7", some "2030-01-01T00:00:00Z"⟩) ∧
    mainRun okNet 0 "cid" "key" "org/repo" renderFailOps (Except.ok ())
        false (FileRead.ok ⟨some 4, none, none⟩)
        [⟨9, "bob", "Title", none⟩] =
      Except.error "TemplateError" :=
  ⟨rfl, rfl⟩

/-- C8 (amended): when the polling loop completes, the state file is
overwritten exactly once with the full record as mutated by the token
refresh and the loop — even when individual pull requests errored — and
when polling itself raises (an uncaught render failure), the run aborts
with no state write, in addition to the pre-polling failure cases. -/
theorem C8_save_after_poll (net : Net) (now : Int) (cid key repo : String)
    (ops : GithubOps) (ac : Bool) (raw : RawStatus)
    (pulls : List PullRequest) (tok : String) (st1 : Status)
    (htok : (get_or_refresh_token net now (applyDefaults raw) cid key
      repo).1 = Except.ok (tok, st1)) :
    (∀ res, poll ops ac st1 pulls = Except.ok res →
      mainRun net now cid key repo ops (Except.ok ()) ac (FileRead.ok raw)
        pulls = Except.ok (res.status, res)) ∧
    (∀ e, poll ops ac st1 pulls = Except.error e →
      mainRun net now cid key repo ops (Except.ok ()) ac (FileRead.ok raw)
        pulls = Except.error e) := by
  constructor
  · intro res hres
    simp [mainRun, mainRunLoaded, htok, hres]
  · intro e he
    simp [mainRun, mainRunLoaded, htok, he]

/-- Witness for the amended C8: a run in which #3 errors (fetch failure)
still ends with the single state write of the full record. -/
theorem C8_save_after_poll_witness :
    poll fetchFailOps false ⟨2, some "tok7", some "2030-01-01T00:00:00Z"⟩
        [⟨3, "d", "t", none⟩] =
      Except.ok ⟨⟨2, some "tok7", some "2030-01-01T00:00:00Z"⟩, [],
        [(3, PullOutcome.errored)]⟩ ∧
    mainRun okNet 0 "cid" "key" "org/repo" fetchFailOps (Except.ok ())
        false (FileRead.ok ⟨some 2, none, none⟩) [⟨3, "d", "t", none⟩] =
      Except.ok (⟨2, some "tok7", some "2030-01-01T00:00:00Z"⟩,
        ⟨⟨2, some "tok7", some "2030-01-01T00:00:00Z"⟩, [],
          [(3, PullOutcome.errored)]⟩) := by
  constructor
  · rfl
  · exact (C8_save_after_poll okNet 0 "cid" "key" "org/repo" fetchFailOps
      false ⟨some 2, none, none⟩ [⟨3, "d", "t", none⟩] "tok7"
      ⟨2, some "tok7", some "2030-01-01T00:00:00Z"⟩ rfl).1
      ⟨⟨2, some "tok7", some "2030-01-01T00:00:00Z"⟩, [],
        [(3, PullOutcome.errored)]⟩ rfl

/-- C9: the loop's break threshold is `pull_req_number` as read once at
the start of `poll`; advancing the mark during the run never changes the
stopping condition, so every pull request whose number exceeds the starting
mark is examined (none hits the break) — even after a higher-numbered pull
request has been commented and the live mark has moved above it. -/
theorem C9_threshold_read_once (ops : GithubOps) (ac : Bool) (st : Status)
    (pulls : List PullRequest) (res : PollResult)
    (hall : ∀ p ∈ pulls, st.pull_req_number < p.number)
    (hok : poll ops ac st pulls = Except.ok res) :
    res.outcomes.map Prod.fst = pulls.map PullRequest.number ∧
    ∀ o ∈ res.outcomes, o.2 ≠ PullOutcome.broke :=
  pollLoop_all_above ops ac st.pull_req_number pulls st res hall hok

/-- Witness for C9: starting mark 5 over #10 then #7 — after #10 is
commented the live mark is 10 > 7, yet #7 is still examined and commented,
because the break compares against the 5 read at the start. -/
theorem C9_threshold_read_once_witness :
    poll okOps false ⟨5, none, none⟩
        [⟨10, "a", "t", none⟩, ⟨7, "b", "t", none⟩] =
      Except.ok ⟨⟨10, none, none⟩,
        [Effect.postComment 10 "hello a", Effect.postComment 7 "hello b"],
        [(10, PullOutcome.posted), (7, PullOutcome.posted)]⟩ ∧
    [(10, PullOutcome.posted), (7, PullOutcome.posted)].map Prod.fst =
      [⟨10, "a", "t", none⟩, ⟨7, "b", "t", none⟩].map
        PullRequest.number := by
  refine ⟨rfl, ?_⟩
  exact (C9_threshold_read_once okOps false ⟨5, none, none⟩
    [⟨10, "a", "t", none⟩, ⟨7, "b", "t", none⟩]
    ⟨⟨10, none, none⟩,
      [Effect.postComment 10 "hello a", Effect.postComment 7 "hello b"],
      [(10, PullOutcome.posted), (7, PullOutcome.posted)]⟩
    (by decide) rfl).1

end PRBot
